import Mathlib

/-! # dagctl-dbt: the Run and Project reconcilers

A shallow embedding of `internal/controller/dbtrun_controller.go` and
`internal/controller/dbtproject_controller.go` together with the API types of
`api/v1alpha1`.  The declarative store (Get / Create / Status().Update), the
clock and the cron library are external collaborators: each call site of the
source reads its answer from an environment record, and every call that the
source issues is logged in an event trace together with its payload.
-/

namespace DagctlDbt

/-! ## Errors and results -/

/-- Errors that travel through the controllers.  `notFound` is the one that
`apierrors.IsNotFound` recognises; `wrapped` is `fmt.Errorf("...: %w", err)`. -/
inductive Err where
  | notFound
  | conflict
  | other (msg : String)
  | wrapped (msg : String) (cause : Err)
  deriving DecidableEq, Repr

/-- The test `apierrors.IsNotFound(err)`. -/
def IsNotFound : Err → Bool
  | .notFound => true
  | _ => false

/-- The value `time.Minute`, in nanoseconds (`time.Duration` counts nanoseconds). -/
def Minute : Int := 60000000000

/-- The struct `ctrl.Result`; `RequeueAfter` is a `time.Duration`. -/
structure Result where
  Requeue : Bool := false
  RequeueAfter : Int := 0
  deriving DecidableEq, Repr

/-- A point in time (`metav1.Time`), as seconds on the wall clock. -/
abbrev Time := Nat

/-! ## Kubernetes objects (the fields the controllers touch) -/

structure EnvVar where
  Name : String
  Value : String
  deriving DecidableEq, Repr

structure ResourceRequirements where
  Limits : List (String × String) := []
  Requests : List (String × String) := []
  deriving DecidableEq, Repr

structure VolumeMount where
  Name : String
  MountPath : String
  deriving DecidableEq, Repr

inductive VolumeSource where
  | EmptyDir
  | ConfigMap (name : String)
  | Secret (secretName : String) (defaultMode : Nat)
  deriving DecidableEq, Repr

structure Volume where
  Name : String
  Source : VolumeSource
  deriving DecidableEq, Repr

structure Container where
  Name : String
  Image : String
  Command : List String
  WorkingDir : String := ""
  Env : List EnvVar := []
  Resources : ResourceRequirements := {}
  VolumeMounts : List VolumeMount := []
  deriving DecidableEq, Repr

structure OwnerReference where
  Kind : String
  Name : String
  Controller : Bool
  deriving DecidableEq, Repr

/-- The struct `corev1.ObjectReference`, as the Run status records it. -/
structure ObjectReference where
  Kind : String
  APIVersion : String
  Name : String
  Namespace : String
  UID : String
  deriving DecidableEq, Repr

/-- The struct `batchv1.JobStatus`: the `int32` pod counters. -/
structure JobStatus where
  Active : Int := 0
  Succeeded : Int := 0
  Failed : Int := 0
  deriving DecidableEq, Repr

/-- The struct `batchv1.Job`, flattened: metadata, the pod template and the status. -/
structure Job where
  Name : String
  Namespace : String
  UID : String := ""
  Labels : List (String × String) := []
  Annotations : List (String × String) := []
  OwnerReferences : List OwnerReference := []
  TTLSecondsAfterFinished : Option Int := none
  InitContainers : List Container := []
  Containers : List Container := []
  Volumes : List Volume := []
  RestartPolicy : String := ""
  ServiceAccountName : String := ""
  Status : JobStatus := {}
  deriving DecidableEq, Repr

/-! ## api/v1alpha1 -/

structure GitConfig where
  Repository : String := ""
  Ref : String := ""
  Path : String := ""
  SSHKeySecret : String := ""
  AuthSecret : String := ""
  deriving DecidableEq, Repr

structure DbtProjectSpec where
  Git : GitConfig := {}
  Schedule : String := ""
  Image : String := ""
  ProfilesConfigMap : String := ""
  ProfilesSecret : String := ""
  Commands : List String := []
  Env : List EnvVar := []
  Resources : ResourceRequirements := {}
  ServiceAccountName : String := ""
  Suspend : Bool := false
  VolumeMounts : List VolumeMount := []
  deriving DecidableEq, Repr

abbrev DbtProjectPhase := String

def DbtProjectPhaseReady : DbtProjectPhase := "Ready"
def DbtProjectPhaseSuspended : DbtProjectPhase := "Suspended"
def DbtProjectPhaseError : DbtProjectPhase := "Error"

structure DbtProjectStatus where
  LastScheduledTime : Option Time := none
  LastSuccessfulTime : Option Time := none
  Phase : DbtProjectPhase := ""
  ObservedGeneration : Int := 0
  deriving DecidableEq, Repr

structure DbtProject where
  Name : String
  Namespace : String
  Generation : Int := 0
  Spec : DbtProjectSpec := {}
  Status : DbtProjectStatus := {}
  deriving DecidableEq, Repr

abbrev RunType := String

def RunTypeScheduled : RunType := "Scheduled"
def RunTypeManual : RunType := "Manual"
def RunTypeWebhook : RunType := "Webhook"

structure DbtRunSpec where
  ProjectRef : String := ""
  Type_ : RunType := ""
  Commands : List String := []
  TTLSecondsAfterFinished : Option Int := none
  deriving DecidableEq, Repr

abbrev RunPhase := String

def RunPhasePending : RunPhase := "Pending"
def RunPhaseRunning : RunPhase := "Running"
def RunPhaseSucceeded : RunPhase := "Succeeded"
def RunPhaseFailed : RunPhase := "Failed"
def RunPhaseError : RunPhase := "Error"

structure DbtRunStatus where
  Phase : RunPhase := ""
  StartTime : Option Time := none
  CompletionTime : Option Time := none
  JobRef : Option ObjectReference := none
  JobStatus : Option JobStatus := none
  deriving DecidableEq, Repr

structure DbtRun where
  Name : String
  Namespace : String
  Spec : DbtRunSpec := {}
  Status : DbtRunStatus := {}
  deriving DecidableEq, Repr

/-! ## Event trace -/

/-- One call that a controller issues to a collaborator, with its payload and
(for status writes) whether the store accepted it.  `invokeCreateJob` marks an
entry into `createJob`. -/
inductive Event where
  | invokeCreateJob (run : String)
  | create (job : Job)
  | getJob (ns name : String)
  | updateRunStatus (run : DbtRun) (accepted : Bool)
  | updateProjectStatus (project : DbtProject) (accepted : Bool)
  deriving DecidableEq, Repr

/-! ## dbtrun_controller.go: createJob -/

/-- The function `getGitRef`. -/
def getGitRef (ref : String) : String :=
  if ref = "" then "main" else ref

/-- The answers of the collaborators during one Run reconcile, one field per
call site of the source. -/
structure RunEnv where
  /-- Error of `r.Get` for the Run, `none` when the Run is found. -/
  getRun : Option Err := none
  /-- Answer of `r.Get` for the Project under the given namespace and name. -/
  getProject : String → String → Except Err DbtProject
  /-- Result of the status write that records `Pending`. -/
  updPending : Option Err := none
  /-- Formatted `metav1.Now()` of the created-at annotation. -/
  createdAt : String := ""
  /-- Result of `controllerutil.SetControllerReference`. -/
  setControllerReference : Option Err := none
  /-- Result of `r.Create` for the Job: the UID the store assigns, or an error. -/
  createRes : Except Err String := .ok ""
  /-- Result of the status write after a failed `createJob` (ignored by the source). -/
  updCreateFailed : Option Err := none
  /-- Value of `metav1.Now()` for the start time. -/
  nowStart : Time := 0
  /-- Result of the status write that records the job reference. -/
  updStarted : Option Err := none
  /-- Answer of `r.Get` for the Job under the given namespace and name. -/
  getJob : String → String → Except Err Job
  /-- Result of the status write after a not-found Job (ignored by the source). -/
  updJobMissing : Option Err := none
  /-- Value of `metav1.Now()` in the succeeded branch. -/
  nowSucceeded : Time := 0
  /-- Value of `metav1.Now()` in the failed branch. -/
  nowFailed : Time := 0
  /-- Result of the Project status write in the succeeded branch (logged only). -/
  updProject : Option Err := none
  /-- Result of the final Run status write. -/
  updFinal : Option Err := none

/-- Lines 129-273 of `createJob`: the Job object as it is assembled before the
owner reference is set and the object is sent to the store. -/
def buildJob (createdAt : String) (run : DbtRun) (project : DbtProject) : Job :=
  let commands := run.Spec.Commands
  let commands := if commands.length = 0 then project.Spec.Commands else commands
  let commands := if commands.length = 0 then ["run"] else commands
  let image := project.Spec.Image
  let image := if image = "" then "ghcr.io/dbt-labs/dbt-postgres:1.7.0" else image
  let initMounts : List VolumeMount := [{ Name := "workspace", MountPath := "/workspace" }]
  let initMounts :=
    if project.Spec.Git.SSHKeySecret ≠ "" then
      initMounts ++ [{ Name := "ssh-key", MountPath := "/root/.ssh" }]
    else initMounts
  let initContainers : List Container := [{
    Name := "git-clone"
    Image := "alpine/git:latest"
    Command := ["sh", "-c",
      "git clone " ++ project.Spec.Git.Repository ++
        " /workspace && cd /workspace && git checkout " ++ getGitRef project.Spec.Git.Ref]
    VolumeMounts := initMounts }]
  let dbtCmd := ["dbt"]
  let dbtCmd := dbtCmd ++ commands
  let workDir := "/workspace"
  let workDir :=
    if project.Spec.Git.Path ≠ "" ∧ project.Spec.Git.Path ≠ "/" then
      "/workspace/" ++ project.Spec.Git.Path
    else workDir
  let mounts : List VolumeMount := [{ Name := "workspace", MountPath := "/workspace" }]
  let mounts :=
    if project.Spec.ProfilesConfigMap ≠ "" then
      mounts ++ [{ Name := "profiles", MountPath := "/root/.dbt" }]
    else mounts
  let mounts := mounts ++ project.Spec.VolumeMounts
  let container : Container := {
    Name := "dbt"
    Image := image
    Command := dbtCmd
    WorkingDir := workDir
    Env := project.Spec.Env
    Resources := project.Spec.Resources
    VolumeMounts := mounts }
  let volumes : List Volume := [{ Name := "workspace", Source := .EmptyDir }]
  let volumes :=
    if project.Spec.ProfilesConfigMap ≠ "" then
      volumes ++ [{ Name := "profiles", Source := .ConfigMap project.Spec.ProfilesConfigMap }]
    else volumes
  let volumes :=
    if project.Spec.Git.SSHKeySecret ≠ "" then
      volumes ++ [{ Name := "ssh-key", Source := .Secret project.Spec.Git.SSHKeySecret 0o400 }]
    else volumes
  let labels := [
    ("app.kubernetes.io/name", "dagctl-dbt"),
    ("app.kubernetes.io/component", "dbt-run"),
    ("app.kubernetes.io/managed-by", "dagctl-dbt-operator"),
    ("orchestration.scalecraft.io/project", project.Name),
    ("orchestration.scalecraft.io/run", run.Name),
    ("orchestration.scalecraft.io/run-type", run.Spec.Type_)]
  let annotations := [
    ("orchestration.scalecraft.io/dbt-command", "dbt [" ++ " ".intercalate commands ++ "]"),
    ("orchestration.scalecraft.io/created-at", createdAt)]
  { Name := run.Name ++ "-" ++ "job"
    Namespace := run.Namespace
    Labels := labels
    Annotations := annotations
    TTLSecondsAfterFinished := run.Spec.TTLSecondsAfterFinished
    InitContainers := initContainers
    Containers := [container]
    Volumes := volumes
    RestartPolicy := "Never"
    ServiceAccountName := project.Spec.ServiceAccountName }

/-- The method `DbtRunReconciler.createJob`: assemble the Job, make the Run its
controller owner, send it to the store.  Returns the result together with the
calls issued. -/
def DbtRunReconciler.createJob (env : RunEnv) (run : DbtRun) (project : DbtProject) :
    Except Err Job × List Event :=
  let job := buildJob env.createdAt run project
  match env.setControllerReference with
  | some err => (.error err, [.invokeCreateJob run.Name])
  | none =>
    let job := { job with
      OwnerReferences := [{ Kind := "DbtRun", Name := run.Name, Controller := true }] }
    match env.createRes with
    | .error err => (.error err, [.invokeCreateJob run.Name, .create job])
    | .ok uid => (.ok { job with UID := uid }, [.invokeCreateJob run.Name, .create job])

/-! ## dbtrun_controller.go: Reconcile -/

/-- What one Run reconcile leaves behind: the returned pair, the local variables
`dbtRun`, `project` and `job` at the return (`job` is `none` as long as the Get
of line 93 has not filled it), the Run as the store holds it afterwards, and the
calls issued. -/
structure RunOutcome where
  result : Result
  err : Option Err
  dbtRun : DbtRun
  project : DbtProject
  job : Option Job := none
  stored : DbtRun
  trace : List Event

/-- The Run the store holds after `r.Status().Update(ctx, &dbtRun)` answered
`res`: the written object when the write is accepted, the old one otherwise. -/
def persist (res : Option Err) (dbtRun stored : DbtRun) : DbtRun :=
  match res with
  | none => dbtRun
  | some _ => stored

/-- Lines 88-125 of `Reconcile`: fetch the Job under the recorded reference,
mirror its status, classify, write the Run status. -/
def reconcileJob (env : RunEnv) (ref : ObjectReference) (dbtRun : DbtRun)
    (project : DbtProject) (stored : DbtRun) (trace : List Event) : RunOutcome :=
  let trace := trace ++ [.getJob ref.Namespace ref.Name]
  match env.getJob ref.Namespace ref.Name with
  | .error err =>
    if IsNotFound err then
      let dbtRun := { dbtRun with Status.Phase := RunPhaseError }
      { result := {}, err := none, dbtRun := dbtRun, project := project
        stored := persist env.updJobMissing dbtRun stored
        trace := trace ++ [.updateRunStatus dbtRun env.updJobMissing.isNone] }
    else
      { result := {}, err := some err, dbtRun := dbtRun, project := project
        stored := stored, trace := trace }
  | .ok job =>
    let dbtRun := { dbtRun with Status.JobStatus := some job.Status }
    if job.Status.Succeeded > 0 then
      let dbtRun := { dbtRun with Status.Phase := RunPhaseSucceeded }
      let now := env.nowSucceeded
      let dbtRun := { dbtRun with Status.CompletionTime := some now }
      let project := { project with Status.LastSuccessfulTime := some now }
      let trace := trace ++ [.updateProjectStatus project env.updProject.isNone]
      match env.updFinal with
      | some err =>
        { result := {}, err := some err, dbtRun := dbtRun, project := project, job := some job
          stored := stored, trace := trace ++ [.updateRunStatus dbtRun false] }
      | none =>
        { result := {}, err := none, dbtRun := dbtRun, project := project, job := some job
          stored := dbtRun, trace := trace ++ [.updateRunStatus dbtRun true] }
    else if job.Status.Failed > 0 then
      let dbtRun := { dbtRun with Status.Phase := RunPhaseFailed }
      let now := env.nowFailed
      let dbtRun := { dbtRun with Status.CompletionTime := some now }
      match env.updFinal with
      | some err =>
        { result := {}, err := some err, dbtRun := dbtRun, project := project, job := some job
          stored := stored, trace := trace ++ [.updateRunStatus dbtRun false] }
      | none =>
        { result := {}, err := none, dbtRun := dbtRun, project := project, job := some job
          stored := dbtRun, trace := trace ++ [.updateRunStatus dbtRun true] }
    else
      let dbtRun := { dbtRun with Status.Phase := RunPhaseRunning }
      match env.updFinal with
      | some err =>
        { result := {}, err := some err, dbtRun := dbtRun, project := project, job := some job
          stored := stored, trace := trace ++ [.updateRunStatus dbtRun false] }
      | none =>
        { result := {}, err := none, dbtRun := dbtRun, project := project, job := some job
          stored := dbtRun, trace := trace ++ [.updateRunStatus dbtRun true] }

/-- Lines 62-86 of `Reconcile`: the creation gate.  With a recorded reference
the block is skipped; without one `createJob` runs and its result is recorded. -/
def reconcileEnsureJob (env : RunEnv) (dbtRun : DbtRun) (project : DbtProject)
    (stored : DbtRun) (trace : List Event) : RunOutcome :=
  match dbtRun.Status.JobRef with
  | some ref => reconcileJob env ref dbtRun project stored trace
  | none =>
    let created := DbtRunReconciler.createJob env dbtRun project
    let trace := trace ++ created.2
    match created.1 with
    | .error err =>
      let dbtRun := { dbtRun with Status.Phase := RunPhaseError }
      { result := {}, err := some err, dbtRun := dbtRun, project := project
        stored := persist env.updCreateFailed dbtRun stored
        trace := trace ++ [.updateRunStatus dbtRun env.updCreateFailed.isNone] }
    | .ok job =>
      let ref : ObjectReference := {
        Kind := "Job"
        APIVersion := "batch/v1"
        Name := job.Name
        Namespace := job.Namespace
        UID := job.UID }
      let dbtRun := { dbtRun with Status.JobRef := some ref }
      let now := env.nowStart
      let dbtRun := { dbtRun with Status.StartTime := some now }
      let dbtRun := { dbtRun with Status.Phase := RunPhaseRunning }
      match env.updStarted with
      | some err =>
        { result := {}, err := some err, dbtRun := dbtRun, project := project
          stored := stored, trace := trace ++ [.updateRunStatus dbtRun false] }
      | none =>
        reconcileJob env ref dbtRun project dbtRun
          (trace ++ [.updateRunStatus dbtRun true])

/-- The zero value of `orchestrationv1alpha1.DbtRun` (a declared, unfilled variable). -/
def zeroRun : DbtRun := { Name := "", Namespace := "" }

/-- The zero value of `orchestrationv1alpha1.DbtProject`. -/
def zeroProject : DbtProject := { Name := "", Namespace := "" }

/-- The method `DbtRunReconciler.Reconcile`, for the Run that the store holds
under the request key (`stored`). -/
def DbtRunReconciler.Reconcile (env : RunEnv) (stored : DbtRun) : RunOutcome :=
  match env.getRun with
  | some err =>
    if IsNotFound err then
      { result := {}, err := none, dbtRun := zeroRun, project := zeroProject
        stored := stored, trace := [] }
    else
      { result := {}, err := some err, dbtRun := zeroRun, project := zeroProject
        stored := stored, trace := [] }
  | none =>
    let dbtRun := stored
    match env.getProject dbtRun.Namespace dbtRun.Spec.ProjectRef with
    | .error err =>
      { result := {}, err := some err, dbtRun := dbtRun, project := zeroProject
        stored := stored, trace := [] }
    | .ok project =>
      if dbtRun.Status.Phase = "" then
        let dbtRun := { dbtRun with Status.Phase := RunPhasePending }
        match env.updPending with
        | some err =>
          { result := {}, err := some err, dbtRun := dbtRun, project := project
            stored := stored, trace := [.updateRunStatus dbtRun false] }
        | none =>
          reconcileEnsureJob env dbtRun project dbtRun [.updateRunStatus dbtRun true]
      else
        reconcileEnsureJob env dbtRun project stored []

/-- Reconciles invoked in a row on one Run identity: each invocation fetches
what the store holds after the previous one.  Returns the Run finally stored
and the calls of all invocations, in order. -/
def reconcileAll : List RunEnv → DbtRun → DbtRun × List Event
  | [], stored => (stored, [])
  | env :: envs, stored =>
    let out := DbtRunReconciler.Reconcile env stored
    let rest := reconcileAll envs out.stored
    (rest.1, out.trace ++ rest.2)

/-- Whether an event is an entry into `createJob` or a Job create. -/
def Event.isCreation : Event → Bool
  | .invokeCreateJob _ => true
  | .create _ => true
  | _ => false

/-! ## dbtproject_controller.go: the scheduling table -/

/-- The type `cron.EntryID`. -/
abbrev EntryID := Nat

/-- Modelled from the spec: one registered tick source of the cron library
(`github.com/robfig/cron/v3`, not part of this repository's sources).  It keeps
the identity the library handed out, the schedule expression, and the job id of
the project that the registered callback `func() { r.createScheduledRun(project) }`
captured. -/
structure Entry where
  ID : EntryID
  Schedule : String
  Owner : String
  deriving DecidableEq, Repr

/-- Modelled from the spec: the cron scheduler `*cron.Cron` as the controller
uses it, a list of live entries and the counter from which identities are handed
out (§4.2: "registers a new tick source", "opaque timer-entry identity"). -/
structure Cron where
  entries : List Entry := []
  nextID : EntryID := 0
  deriving DecidableEq, Repr

/-- Modelled from the spec: `Scheduler.AddFunc(spec, cmd)`.  The expression is
parsed first (`parse` answers `none` when it is accepted); a rejected expression
registers nothing, an accepted one is registered under the next identity.  The
identities are fresh: the counter is a natural number and never wraps. -/
def Cron.AddFunc (parse : String → Option Err) (c : Cron) (spec : String) (owner : String) :
    Except Err EntryID × Cron :=
  match parse spec with
  | some err => (.error err, c)
  | none =>
    let id := c.nextID + 1
    (.ok id, { entries := c.entries ++ [{ ID := id, Schedule := spec, Owner := owner }]
               nextID := id })

/-- Modelled from the spec: `Scheduler.Remove(id)` drops the entries registered
under that identity. -/
def Cron.Remove (c : Cron) (id : EntryID) : Cron :=
  { c with entries := c.entries.filter (fun e => e.ID ≠ id) }

/-- The struct `types.NamespacedName`. -/
structure NamespacedName where
  Namespace : String
  Name : String
  deriving DecidableEq, Repr

/-- The process-wide state the Project reconciler works on: the package variable
`scheduledJobs` (a Go map from job id to entry identity) and the `Scheduler` field. -/
structure SchedulerState where
  scheduledJobs : String → Option EntryID := fun _ => none
  Scheduler : Cron := {}

/-- The job id `fmt.Sprintf("%s/%s", namespace, name)`. -/
def jobID (ns name : String) : String :=
  ns ++ "/" ++ name

/-- The method `DbtProjectReconciler.removeScheduledJob`. -/
def removeScheduledJob (st : SchedulerState) (key : NamespacedName) : SchedulerState :=
  let jobID := jobID key.Namespace key.Name
  match st.scheduledJobs jobID with
  | some entryID =>
    { scheduledJobs := fun k => if k = jobID then none else st.scheduledJobs k
      Scheduler := st.Scheduler.Remove entryID }
  | none => st

/-- The method `DbtProjectReconciler.scheduleProject`. -/
def scheduleProject (parse : String → Option Err) (st : SchedulerState)
    (project : DbtProject) : Option Err × SchedulerState :=
  let jobID := jobID project.Namespace project.Name
  let st := removeScheduledJob st { Namespace := project.Namespace, Name := project.Name }
  let added := st.Scheduler.AddFunc parse project.Spec.Schedule jobID
  match added.1 with
  | .error err =>
    (some (.wrapped "failed to schedule job" err), { st with Scheduler := added.2 })
  | .ok entryID =>
    (none, { scheduledJobs := fun k => if k = jobID then some entryID else st.scheduledJobs k
             Scheduler := added.2 })

/-- The table states that installs and removals can produce, starting from the
empty table and a new scheduler. -/
inductive Reachable (parse : String → Option Err) : SchedulerState → Prop where
  | init : Reachable parse {}
  | install (st : SchedulerState) (project : DbtProject) :
      Reachable parse st → Reachable parse (scheduleProject parse st project).2
  | remove (st : SchedulerState) (key : NamespacedName) :
      Reachable parse st → Reachable parse (removeScheduledJob st key)

/-! ## dbtproject_controller.go: Reconcile -/

/-- The answers of the collaborators during one Project reconcile, one field
per call site of the source. -/
structure ProjectEnv where
  /-- Error of `r.Get` for the Project, `none` when it is found. -/
  getProject : Option Err := none
  /-- Result of the status write that initialises the phase. -/
  updInit : Option Err := none
  /-- Result of the status write that records `Suspended`. -/
  updSuspended : Option Err := none
  /-- The parser of the cron library: `none` when the expression is accepted. -/
  parse : String → Option Err
  /-- Result of the status write that records `Error` (ignored by the source). -/
  updError : Option Err := none
  /-- Result of the status write that records `Ready`. -/
  updReady : Option Err := none

/-- What one Project reconcile leaves behind: the returned pair, the local
variable `dbtProject` at the return, the Project as the store holds it
afterwards, the scheduling state and the status writes issued. -/
structure ProjectOutcome where
  result : Result
  err : Option Err
  dbtProject : DbtProject
  stored : DbtProject
  sched : SchedulerState
  trace : List Event

/-- Lines 59-86 of `Reconcile`: suspend, schedule, ready. -/
def reconcileSchedule (env : ProjectEnv) (req : NamespacedName) (st : SchedulerState)
    (dbtProject : DbtProject) (stored : DbtProject) (trace : List Event) : ProjectOutcome :=
  if dbtProject.Spec.Suspend then
    if dbtProject.Status.Phase ≠ DbtProjectPhaseSuspended then
      let dbtProject := { dbtProject with Status.Phase := DbtProjectPhaseSuspended }
      match env.updSuspended with
      | some err =>
        { result := {}, err := some err, dbtProject := dbtProject, stored := stored
          sched := st, trace := trace ++ [.updateProjectStatus dbtProject false] }
      | none =>
        { result := {}, err := none, dbtProject := dbtProject, stored := dbtProject
          sched := removeScheduledJob st req
          trace := trace ++ [.updateProjectStatus dbtProject true] }
    else
      { result := {}, err := none, dbtProject := dbtProject, stored := stored
        sched := removeScheduledJob st req, trace := trace }
  else
    let scheduled :=
      if dbtProject.Spec.Schedule ≠ "" then scheduleProject env.parse st dbtProject
      else (none, st)
    match scheduled.1 with
    | some err =>
      let dbtProject := { dbtProject with Status.Phase := DbtProjectPhaseError }
      { result := { RequeueAfter := 1 * Minute }, err := some err, dbtProject := dbtProject
        stored := match env.updError with
          | none => dbtProject
          | some _ => stored
        sched := scheduled.2
        trace := trace ++ [.updateProjectStatus dbtProject env.updError.isNone] }
    | none =>
      if dbtProject.Status.Phase ≠ DbtProjectPhaseReady then
        let dbtProject := { dbtProject with Status.Phase := DbtProjectPhaseReady }
        match env.updReady with
        | some err =>
          { result := {}, err := some err, dbtProject := dbtProject, stored := stored
            sched := scheduled.2, trace := trace ++ [.updateProjectStatus dbtProject false] }
        | none =>
          { result := {}, err := none, dbtProject := dbtProject, stored := dbtProject
            sched := scheduled.2, trace := trace ++ [.updateProjectStatus dbtProject true] }
      else
        { result := {}, err := none, dbtProject := dbtProject, stored := stored
          sched := scheduled.2, trace := trace }

/-- The method `DbtProjectReconciler.Reconcile`, for the Project that the store
holds under the request key (`stored`); the request key is that Project's
namespace and name. -/
def DbtProjectReconciler.Reconcile (env : ProjectEnv) (st : SchedulerState)
    (stored : DbtProject) : ProjectOutcome :=
  let req : NamespacedName := { Namespace := stored.Namespace, Name := stored.Name }
  match env.getProject with
  | some err =>
    if IsNotFound err then
      { result := {}, err := none, dbtProject := zeroProject, stored := stored
        sched := st, trace := [] }
    else
      { result := {}, err := some err, dbtProject := zeroProject, stored := stored
        sched := st, trace := [] }
  | none =>
    let dbtProject := stored
    if dbtProject.Status.Phase = "" then
      let dbtProject := { dbtProject with Status.Phase := DbtProjectPhaseReady }
      let dbtProject := { dbtProject with Status.ObservedGeneration := dbtProject.Generation }
      match env.updInit with
      | some err =>
        { result := {}, err := some err, dbtProject := dbtProject, stored := stored
          sched := st, trace := [.updateProjectStatus dbtProject false] }
      | none =>
        reconcileSchedule env req st dbtProject dbtProject
          [.updateProjectStatus dbtProject true]
    else
      reconcileSchedule env req st dbtProject stored []

/-- The invariant of the scheduling state: every live scheduler entry is the one
the table records for its owner, the table only holds identities the scheduler
has handed out, and no identity is recorded under two job ids. -/
structure TableInv (st : SchedulerState) : Prop where
  owned : ∀ e ∈ st.Scheduler.entries, st.scheduledJobs e.Owner = some e.ID
  bounded : ∀ k id, st.scheduledJobs k = some id → id ≤ st.Scheduler.nextID
  injective : ∀ k1 k2 id, st.scheduledJobs k1 = some id → st.scheduledJobs k2 = some id →
    k1 = k2

/-- An event that is no creation and, when it is a Run status write, writes a
Run that records the reference `ref`. -/
def Event.keepsRef (ref : ObjectReference) : Event → Prop
  | .invokeCreateJob _ => False
  | .create _ => False
  | .updateRunStatus run _ => run.Status.JobRef = some ref
  | _ => True

/-! ## Sample objects -/

/-- A Run with a command override. -/
def runTest : DbtRun :=
  { Name := "nightly", Namespace := "data",
    Spec := { ProjectRef := "shop", Type_ := RunTypeManual, Commands := ["test"] } }

/-- A Project with default commands and a sub-path. -/
def projectShop : DbtProject :=
  { Name := "shop", Namespace := "data",
    Spec := { Commands := ["run", "--select", "x"], Git := { Path := "models" } },
    Status := { Phase := DbtProjectPhaseReady } }

/-- A store in which every call succeeds, the Project is `projectShop` and the
Job carries the given status. -/
def envWith (status : JobStatus) : RunEnv :=
  { getProject := fun _ _ => .ok projectShop
    createRes := .ok "uid-1"
    nowStart := 100
    nowSucceeded := 200
    nowFailed := 300
    getJob := fun ns name => .ok { Name := name, Namespace := ns, Status := status } }

/-- The Job of the Run `nightly` as the store reports it, with the given status. -/
def jobNightly (status : JobStatus) : Job :=
  { Name := "nightly-job", Namespace := "data", Status := status }

/-- The reference that a started Run records. -/
def jobRefNightly : ObjectReference :=
  { Kind := "Job", APIVersion := "batch/v1", Name := "nightly-job", Namespace := "data",
    UID := "uid-1" }

/-- A Run that has been started: phase `Running`, reference recorded. -/
def runStarted : DbtRun :=
  { runTest with
    Status := { Phase := RunPhaseRunning, StartTime := some 100, JobRef := some jobRefNightly } }

/-- A Run that has finished: phase `Succeeded`, completion time set. -/
def runSucceeded : DbtRun :=
  { runStarted with
    Status := { runStarted.Status with
      Phase := RunPhaseSucceeded, CompletionTime := some 200,
      JobStatus := some { Succeeded := 1 } } }

/-- A store in which every call succeeds but the Job is gone (deleted after it
finished). -/
def envJobGone : RunEnv :=
  { getProject := fun _ _ => .ok projectShop
    getJob := fun _ _ => .error .notFound }

/-- A store in which the Job is gone and so is the owning Project. -/
def envProjectGone : RunEnv :=
  { getProject := fun _ _ => .error .notFound
    getJob := fun _ _ => .error .notFound }

/-- A scheduled Project that has been reconciled before. -/
def projectCron : DbtProject :=
  { Name := "shop", Namespace := "data",
    Spec := { Schedule := "0 */5 * * * *" },
    Status := { Phase := DbtProjectPhaseReady } }

/-- The same Project after its schedule has been cleared from the spec. -/
def projectUnscheduled : DbtProject :=
  { projectCron with Spec := { Schedule := "" } }

/-- The same Project after it has been suspended, the schedule still declared. -/
def projectSuspended : DbtProject :=
  { projectCron with Spec := { Schedule := "0 */5 * * * *", Suspend := true } }

/-- A new Project, phase still unset, with a schedule that is no cron expression. -/
def projectBadSchedule : DbtProject :=
  { Name := "shop", Namespace := "data", Spec := { Schedule := "every day" } }

/-- The scheduled Project after its schedule has been edited into something that
is no cron expression. -/
def projectBadEdit : DbtProject :=
  { projectCron with Spec := { Schedule := "every day" } }

/-- Another scheduled Project of the same namespace. -/
def projectOther : DbtProject :=
  { Name := "billing", Namespace := "data",
    Spec := { Schedule := "0 0 * * * *" },
    Status := { Phase := DbtProjectPhaseReady } }

/-- The cron parser on the expressions of the samples: it accepts the six-field
expressions and rejects the rest. -/
def parseSample (spec : String) : Option Err :=
  if spec = "0 */5 * * * *" ∨ spec = "0 0 * * * *" then none
  else some (.other "expected exactly 6 fields")

/-- A store in which every call of the Project reconciler succeeds. -/
def envProject : ProjectEnv :=
  { parse := parseSample }

/-- A store that answers the `Suspended` status write with a conflict. -/
def envSuspendConflict : ProjectEnv :=
  { parse := parseSample, updSuspended := some .conflict }

/-- A store that answers the initialising status write with a conflict. -/
def envInitConflict : ProjectEnv :=
  { parse := parseSample, updInit := some .conflict }

/-- The scheduling state after `projectCron` has been reconciled once from the
empty table. -/
def schedInstalled : SchedulerState :=
  (DbtProjectReconciler.Reconcile envProject {} projectCron).sched

/-! ## Theorems: the Execution Unit Builder -/

/-- The Job that `createJob` returns, and the Job it sends to the store, carry
the containers of the assembled Job. -/
theorem createJob_containers (env : RunEnv) (run : DbtRun) (project : DbtProject) (job : Job)
    (h : job = buildJob env.createdAt run project ∨
      (DbtRunReconciler.createJob env run project).1 = .ok job ∨
      Event.create job ∈ (DbtRunReconciler.createJob env run project).2) :
    job.Containers = (buildJob env.createdAt run project).Containers := by
  rcases h with h | h | h
  · rw [h]
  · unfold DbtRunReconciler.createJob at h
    cases hs : env.setControllerReference with
    | some e => simp [hs] at h
    | none =>
      cases hc : env.createRes with
      | error e => simp [hs, hc] at h
      | ok uid =>
        simp only [hs, hc, Except.ok.injEq] at h
        rw [← h]
  · unfold DbtRunReconciler.createJob at h
    cases hs : env.setControllerReference with
    | some e => simp [hs] at h
    | none =>
      cases hc : env.createRes with
      | error e =>
        simp only [hs, hc, List.mem_cons, Event.create.injEq, List.mem_singleton,
          List.not_mem_nil, or_false, false_or, reduceCtorEq] at h
        rw [h]
      | ok uid =>
        simp only [hs, hc, List.mem_cons, Event.create.injEq, List.mem_singleton,
          List.not_mem_nil, or_false, false_or, reduceCtorEq] at h
        rw [h]

/-- C1: the main container command of the Job that `createJob` assembles, sends
to the store and returns is `"dbt"` followed by the Run's commands when the Run
has any, else by the Project's commands when the Project has any, else by the
single verb `run`; a Run override `["test"]` gives `["dbt","test"]` whatever the
Project declares, and no Run override with the Project default
`["run","--select","x"]` gives `["dbt","run","--select","x"]`. -/
theorem createJob_command (env : RunEnv) (run : DbtRun) (project : DbtProject) :
    (∀ job, (job = buildJob env.createdAt run project ∨
          (DbtRunReconciler.createJob env run project).1 = .ok job ∨
          Event.create job ∈ (DbtRunReconciler.createJob env run project).2) →
        job.Containers.map (fun c => c.Command) =
          [ "dbt" :: (if run.Spec.Commands ≠ [] then run.Spec.Commands
                      else if project.Spec.Commands ≠ [] then project.Spec.Commands
                      else ["run"]) ]) ∧
    (run.Spec.Commands = ["test"] →
      (buildJob env.createdAt run project).Containers.map (fun c => c.Command)
        = [["dbt", "test"]]) ∧
    (run.Spec.Commands = [] → project.Spec.Commands = ["run", "--select", "x"] →
      (buildJob env.createdAt run project).Containers.map (fun c => c.Command)
        = [["dbt", "run", "--select", "x"]]) := by
  have key : (buildJob env.createdAt run project).Containers.map (fun c => c.Command) =
      [ "dbt" :: (if run.Spec.Commands ≠ [] then run.Spec.Commands
                  else if project.Spec.Commands ≠ [] then project.Spec.Commands
                  else ["run"]) ] := by
    simp only [buildJob, List.length_eq_zero, List.map_cons, List.map_nil, ne_eq,
      ite_not, List.singleton_append]
    by_cases h1 : run.Spec.Commands = [] <;> by_cases h2 : project.Spec.Commands = [] <;>
      simp [h1, h2]
  refine ⟨?_, ?_, ?_⟩
  · intro job h
    rw [createJob_containers env run project job h]; exact key
  · intro h; rw [key]; simp [h]
  · intro h1 h2; rw [key]; simp [h1, h2]

/-- C1 at a concrete input: the Run override `["test"]` against a Project whose
default is `["run","--select","x"]`. -/
theorem createJob_command_witness :
    runTest.Spec.Commands = ["test"] ∧
    (buildJob "" runTest projectShop).Containers.map (fun c => c.Command)
      = [["dbt", "test"]] :=
  ⟨rfl, (createJob_command (envWith {}) runTest projectShop).2.1 rfl⟩

/-- C7: the working directory of the main container of the Job that `createJob`
assembles, sends to the store and returns is `/workspace` when the Project's git
path is empty or `/`, and `/workspace/` followed by the path otherwise; the path
`models` gives `/workspace/models`. -/
theorem createJob_workingDir (env : RunEnv) (run : DbtRun) (project : DbtProject) :
    (∀ job, (job = buildJob env.createdAt run project ∨
          (DbtRunReconciler.createJob env run project).1 = .ok job ∨
          Event.create job ∈ (DbtRunReconciler.createJob env run project).2) →
        job.Containers.map (fun c => c.WorkingDir) =
          [ if project.Spec.Git.Path = "" ∨ project.Spec.Git.Path = "/" then "/workspace"
            else "/workspace/" ++ project.Spec.Git.Path ]) ∧
    (project.Spec.Git.Path = "models" →
      (buildJob env.createdAt run project).Containers.map (fun c => c.WorkingDir)
        = ["/workspace/models"]) := by
  have key : (buildJob env.createdAt run project).Containers.map (fun c => c.WorkingDir) =
      [ if project.Spec.Git.Path = "" ∨ project.Spec.Git.Path = "/" then "/workspace"
        else "/workspace/" ++ project.Spec.Git.Path ] := by
    simp only [buildJob, List.map_cons, List.map_nil, ne_eq]
    by_cases h1 : project.Spec.Git.Path = "" <;> by_cases h2 : project.Spec.Git.Path = "/" <;>
      simp [h1, h2]
  refine ⟨?_, ?_⟩
  · intro job h
    rw [createJob_containers env run project job h]; exact key
  · intro h; rw [key, h]; decide

/-- C7 at a concrete input: the Project with git path `models`. -/
theorem createJob_workingDir_witness :
    projectShop.Spec.Git.Path = "models" ∧
    (buildJob "" runTest projectShop).Containers.map (fun c => c.WorkingDir)
      = ["/workspace/models"] :=
  ⟨rfl, (createJob_workingDir (envWith {}) runTest projectShop).2 rfl⟩

/-! ## Theorems: the creation gate -/

/-- The classification block never creates and keeps the recorded reference in
every Run it writes and in the Run the store holds. -/
theorem reconcileJob_keepsRef (env : RunEnv) (ref ref0 : ObjectReference) (dbtRun : DbtRun)
    (project : DbtProject) (stored : DbtRun) (trace : List Event)
    (hRun : dbtRun.Status.JobRef = some ref0) (hStored : stored.Status.JobRef = some ref0)
    (hTrace : ∀ e ∈ trace, e.keepsRef ref0) :
    (reconcileJob env ref dbtRun project stored trace).stored.Status.JobRef = some ref0 ∧
    ∀ e ∈ (reconcileJob env ref dbtRun project stored trace).trace, e.keepsRef ref0 := by
  unfold reconcileJob
  cases hJob : env.getJob ref.Namespace ref.Name with
  | error err =>
    cases hNF : IsNotFound err
    · simp only [hNF, Bool.false_eq_true, if_false, hStored, true_and]
      intro e he
      rcases List.mem_append.1 he with h | h
      · exact hTrace e h
      · simp only [List.mem_singleton] at h; subst h; trivial
    · cases hU : env.updJobMissing <;>
        simp only [hNF, if_true, persist, hU, hStored, hRun, true_and] <;>
        intro e he <;>
        simp only [List.mem_append, List.mem_singleton] at he <;>
        rcases he with (h | h) | h <;>
        first
          | exact hTrace e h
          | (subst h; simp [Event.keepsRef, hRun])
  | ok job =>
    by_cases hS : job.Status.Succeeded > 0 <;> by_cases hF : job.Status.Failed > 0 <;>
      cases hU : env.updFinal <;>
      simp only [hS, hF, if_true, if_false, hStored, hRun, true_and] <;>
      intro e he <;>
      simp only [List.mem_append, List.mem_singleton] at he <;>
      first
        | (rcases he with ((h | h) | h) | h <;>
            first
              | exact hTrace e h
              | (subst h; simp [Event.keepsRef, hRun]))
        | (rcases he with (h | h) | h <;>
            first
              | exact hTrace e h
              | (subst h; simp [Event.keepsRef, hRun]))

/-- One Run reconcile of a Run with a recorded reference never creates and keeps
that reference in every Run it writes and in the Run the store holds. -/
theorem Reconcile_keepsRef (env : RunEnv) (stored : DbtRun) (ref0 : ObjectReference)
    (hStored : stored.Status.JobRef = some ref0) :
    (DbtRunReconciler.Reconcile env stored).stored.Status.JobRef = some ref0 ∧
    ∀ e ∈ (DbtRunReconciler.Reconcile env stored).trace, e.keepsRef ref0 := by
  unfold DbtRunReconciler.Reconcile
  cases hG : env.getRun with
  | some err => cases hNF : IsNotFound err <;> simp [hNF, hStored]
  | none =>
    cases hP : env.getProject stored.Namespace stored.Spec.ProjectRef with
    | error err => simp [hP, hStored]
    | ok project =>
      simp only [hP]
      by_cases hPh : stored.Status.Phase = ""
      · cases hU : env.updPending with
        | some err => simp [hPh, hStored, Event.keepsRef]
        | none =>
          simp only [hPh, if_true, reconcileEnsureJob, hStored]
          apply reconcileJob_keepsRef
          · rfl
          · rfl
          · intro e he
            simp only [List.mem_singleton] at he
            subst he
            simp [Event.keepsRef]
      · simp only [hPh, if_false, reconcileEnsureJob, hStored]
        apply reconcileJob_keepsRef
        · exact hStored
        · exact hStored
        · intro e he; simp at he

/-- C2: for a Run whose status records a job reference, any number of Run
reconciles in a row, whatever the store answers in each of them, never enter
`createJob` and never issue a Job create; every Run status they write still
records that reference, and so does the Run that the store holds at the end. -/
theorem reconcileAll_never_creates (envs : List RunEnv) (stored : DbtRun)
    (ref : ObjectReference) (hRef : stored.Status.JobRef = some ref) :
    (∀ e ∈ (reconcileAll envs stored).2, e.isCreation = false) ∧
    (∀ run accepted, Event.updateRunStatus run accepted ∈ (reconcileAll envs stored).2 →
      run.Status.JobRef = some ref) ∧
    (reconcileAll envs stored).1.Status.JobRef = some ref := by
  have main : ∀ (envs : List RunEnv) (stored : DbtRun), stored.Status.JobRef = some ref →
      (reconcileAll envs stored).1.Status.JobRef = some ref ∧
      ∀ e ∈ (reconcileAll envs stored).2, e.keepsRef ref := by
    intro envs
    induction envs with
    | nil => intro stored h; simp [reconcileAll, h]
    | cons env envs ih =>
      intro stored h
      have step := Reconcile_keepsRef env stored ref h
      have rest := ih (DbtRunReconciler.Reconcile env stored).stored step.1
      simp only [reconcileAll]
      refine ⟨rest.1, ?_⟩
      intro e he
      rcases List.mem_append.1 he with h1 | h1
      · exact step.2 e h1
      · exact rest.2 e h1
  have h := main envs stored hRef
  refine ⟨?_, ?_, h.1⟩
  · intro e he
    have hk := h.2 e he
    cases e <;> simp_all [Event.keepsRef, Event.isCreation]
  · intro run accepted he
    exact h.2 _ he

/-- C2 at a concrete input: a started Run reconciled twice, first with the Job
still running and then with the Job succeeded. -/
theorem reconcileAll_never_creates_witness :
    runStarted.Status.JobRef = some jobRefNightly ∧
    (reconcileAll [envWith {}, envWith { Succeeded := 1 }] runStarted).1.Status.JobRef
      = some jobRefNightly :=
  ⟨rfl, (reconcileAll_never_creates [envWith {}, envWith { Succeeded := 1 }] runStarted
    jobRefNightly rfl).2.2⟩

/-! ## Theorems: status roll-up -/

/-- A reconcile whose local `job` is filled ends in the classification block:
the whole reconcile is the tail `reconcileJob` and the Job is what the store
answered under the reference. -/
theorem Reconcile_job_found (env : RunEnv) (stored : DbtRun) (job : Job)
    (h : (DbtRunReconciler.Reconcile env stored).job = some job) :
    ∃ ref dbtRun project stored0 trace,
      DbtRunReconciler.Reconcile env stored = reconcileJob env ref dbtRun project stored0 trace ∧
      env.getJob ref.Namespace ref.Name = .ok job := by
  have tail : ∀ ref dbtRun project stored0 trace,
      (reconcileJob env ref dbtRun project stored0 trace).job = some job →
      env.getJob ref.Namespace ref.Name = .ok job := by
    intro ref dbtRun project stored0 trace hj
    unfold reconcileJob at hj
    cases hJob : env.getJob ref.Namespace ref.Name with
    | error err =>
      cases hNF : IsNotFound err <;> simp [hJob, hNF] at hj
    | ok job0 =>
      simp only [hJob] at hj
      have : job0 = job := by
        by_cases hS : job0.Status.Succeeded > 0 <;> by_cases hF : job0.Status.Failed > 0 <;>
          cases hU : env.updFinal <;> simp [hS, hF, hU] at hj <;> exact hj
      rw [this]
  have gate : ∀ dbtRun project stored0 trace,
      (reconcileEnsureJob env dbtRun project stored0 trace).job = some job →
      ∃ ref dbtRun1 project1 stored1 trace1,
        reconcileEnsureJob env dbtRun project stored0 trace
          = reconcileJob env ref dbtRun1 project1 stored1 trace1 ∧
        env.getJob ref.Namespace ref.Name = .ok job := by
    intro dbtRun project stored0 trace hj
    unfold reconcileEnsureJob at hj ⊢
    cases hR : dbtRun.Status.JobRef with
    | some ref =>
      simp only [hR] at hj ⊢
      exact ⟨ref, _, _, _, _, rfl, tail _ _ _ _ _ hj⟩
    | none =>
      simp only [hR] at hj ⊢
      cases hC : (DbtRunReconciler.createJob env dbtRun project).1 with
      | error err => simp [hC] at hj
      | ok job0 =>
        simp only [hC] at hj ⊢
        cases hU : env.updStarted with
        | some err => simp [hU] at hj
        | none =>
          simp only [hU] at hj ⊢
          exact ⟨_, _, _, _, _, rfl, tail _ _ _ _ _ hj⟩
  unfold DbtRunReconciler.Reconcile at h ⊢
  cases hG : env.getRun with
  | some err => cases hNF : IsNotFound err <;> simp [hG, hNF] at h
  | none =>
    simp only [hG] at h ⊢
    cases hP : env.getProject stored.Namespace stored.Spec.ProjectRef with
    | error err => simp [hP] at h
    | ok project =>
      simp only [hP] at h ⊢
      by_cases hPh : stored.Status.Phase = ""
      · simp only [hPh, if_true] at h ⊢
        cases hU : env.updPending with
        | some err => simp [hU] at h
        | none =>
          simp only [hU] at h ⊢
          exact gate _ _ _ _ h
      · simp only [hPh, if_false] at h ⊢
        exact gate _ _ _ _ h

/-- C3: when the Job is found and reports `Succeeded > 0`, the Run reconcile
sets the Run's phase to `Succeeded` and its completion time to the current time,
sets the Project's last-successful time to a time not before that completion
time, issues the status write of the Project and of the Run with these values,
and the store holds the Run so written once it accepts the write. -/
theorem Reconcile_succeeded (env : RunEnv) (stored : DbtRun) (job : Job)
    (hJob : (DbtRunReconciler.Reconcile env stored).job = some job)
    (hS : job.Status.Succeeded > 0) :
    (DbtRunReconciler.Reconcile env stored).dbtRun.Status.Phase = RunPhaseSucceeded ∧
    (∃ tRun tProject,
      (DbtRunReconciler.Reconcile env stored).dbtRun.Status.CompletionTime = some tRun ∧
      (DbtRunReconciler.Reconcile env stored).project.Status.LastSuccessfulTime
        = some tProject ∧
      tProject ≥ tRun) ∧
    (DbtRunReconciler.Reconcile env stored).dbtRun.Status.JobStatus = some job.Status ∧
    Event.updateProjectStatus (DbtRunReconciler.Reconcile env stored).project
      env.updProject.isNone ∈ (DbtRunReconciler.Reconcile env stored).trace ∧
    Event.updateRunStatus (DbtRunReconciler.Reconcile env stored).dbtRun
      env.updFinal.isNone ∈ (DbtRunReconciler.Reconcile env stored).trace ∧
    (env.updFinal = none →
      (DbtRunReconciler.Reconcile env stored).stored
        = (DbtRunReconciler.Reconcile env stored).dbtRun) := by
  obtain ⟨ref, dbtRun, project, stored0, trace, hEq, hGet⟩ := Reconcile_job_found env stored job hJob
  rw [hEq]
  unfold reconcileJob
  cases hU : env.updFinal <;> simp [hGet, hS]

/-- C3 at a concrete input: a started Run whose Job reports one succeeded pod. -/
theorem Reconcile_succeeded_witness :
    (DbtRunReconciler.Reconcile (envWith { Succeeded := 1 }) runStarted).dbtRun.Status.Phase
      = RunPhaseSucceeded :=
  (Reconcile_succeeded (envWith { Succeeded := 1 }) runStarted
    (jobNightly { Succeeded := 1 }) rfl (by decide)).1

/-- C9, as amended: when the Job is found and reports a failed completion and
no succeeded one (`Failed > 0`, `Succeeded > 0` false), the Run reconcile sets
the Run's phase to `Failed` and its completion time to the current time, issues
the Run status write with these values, and the store holds the Run so written
once it accepts the write. -/
theorem Reconcile_failed (env : RunEnv) (stored : DbtRun) (job : Job)
    (hJob : (DbtRunReconciler.Reconcile env stored).job = some job)
    (hS : ¬ job.Status.Succeeded > 0) (hF : job.Status.Failed > 0) :
    (DbtRunReconciler.Reconcile env stored).dbtRun.Status.Phase = RunPhaseFailed ∧
    (DbtRunReconciler.Reconcile env stored).dbtRun.Status.CompletionTime
      = some env.nowFailed ∧
    (DbtRunReconciler.Reconcile env stored).dbtRun.Status.JobStatus = some job.Status ∧
    Event.updateRunStatus (DbtRunReconciler.Reconcile env stored).dbtRun
      env.updFinal.isNone ∈ (DbtRunReconciler.Reconcile env stored).trace ∧
    (env.updFinal = none →
      (DbtRunReconciler.Reconcile env stored).stored
        = (DbtRunReconciler.Reconcile env stored).dbtRun) := by
  obtain ⟨ref, dbtRun, project, stored0, trace, hEq, hGet⟩ := Reconcile_job_found env stored job hJob
  rw [hEq]
  unfold reconcileJob
  cases hU : env.updFinal <;> simp [hGet, hS, hF]

/-- C9 at a concrete input: a started Run whose Job reports two failed pods and
no succeeded one. -/
theorem Reconcile_failed_witness :
    (DbtRunReconciler.Reconcile (envWith { Failed := 2 }) runStarted).dbtRun.Status.Phase
      = RunPhaseFailed :=
  (Reconcile_failed (envWith { Failed := 2 }) runStarted
    (jobNightly { Failed := 2 }) rfl (by decide) (by decide)).1

/-- C9, as stated, fails: a Job found with one failed and one succeeded pod
(a retry that succeeded) reports `Failed > 0`, and the Run's phase becomes
`Succeeded`, not `Failed`. -/
theorem Reconcile_failed_counterexample :
    (DbtRunReconciler.Reconcile (envWith { Succeeded := 1, Failed := 1 })
      runStarted).job.map (fun j => decide (j.Status.Failed > 0)) = some true ∧
    (DbtRunReconciler.Reconcile (envWith { Succeeded := 1, Failed := 1 })
      runStarted).dbtRun.Status.Phase = "Succeeded" ∧
    (DbtRunReconciler.Reconcile (envWith { Succeeded := 1, Failed := 1 })
      runStarted).dbtRun.Status.Phase ≠ RunPhaseFailed := by
  refine ⟨by decide, rfl, ?_⟩
  decide

/-! ## Theorems: terminal phases -/

/-- C8, as stated, fails: a Run in phase `Succeeded` whose Job has been deleted
from the store is moved to phase `Error` by the next reconcile, and the store
holds that phase. -/
theorem Reconcile_terminal_counterexample :
    runSucceeded.Status.Phase = "Succeeded" ∧
    (DbtRunReconciler.Reconcile envJobGone runSucceeded).dbtRun.Status.Phase = "Error" ∧
    (DbtRunReconciler.Reconcile envJobGone runSucceeded).stored.Status.Phase = "Error" ∧
    (DbtRunReconciler.Reconcile envJobGone runSucceeded).stored.Status.Phase
      ≠ runSucceeded.Status.Phase := by
  refine ⟨rfl, rfl, rfl, ?_⟩
  decide

/-- C8, as amended: for a Run with a recorded job reference whose phase is
`Succeeded`, `Failed` or `Error`, the reconcile leaves the phase as it is, in
the local Run, in every status write and in the store, whenever the store's
answer for the Job agrees with that phase: a Job found with `Succeeded > 0` for
`Succeeded`, a Job found with `Failed > 0` and no succeeded pod for `Failed`, a
not-found Job for `Error`; any other failing answer of the store leaves it
too. -/
theorem Reconcile_terminal_phase (env : RunEnv) (stored : DbtRun) (ref : ObjectReference)
    (hRef : stored.Status.JobRef = some ref)
    (hTerm : stored.Status.Phase = RunPhaseSucceeded ∨ stored.Status.Phase = RunPhaseFailed ∨
      stored.Status.Phase = RunPhaseError)
    (hFound : ∀ job, env.getJob ref.Namespace ref.Name = .ok job →
      (stored.Status.Phase = RunPhaseSucceeded ∧ job.Status.Succeeded > 0) ∨
      (stored.Status.Phase = RunPhaseFailed ∧ ¬ job.Status.Succeeded > 0 ∧
        job.Status.Failed > 0))
    (hMissing : ∀ err, env.getJob ref.Namespace ref.Name = .error err →
      IsNotFound err = true → stored.Status.Phase = RunPhaseError) :
    (DbtRunReconciler.Reconcile env stored).stored.Status.Phase = stored.Status.Phase ∧
    (∀ run accepted,
      Event.updateRunStatus run accepted ∈ (DbtRunReconciler.Reconcile env stored).trace →
      run.Status.Phase = stored.Status.Phase) ∧
    (env.getRun = none →
      (DbtRunReconciler.Reconcile env stored).dbtRun.Status.Phase = stored.Status.Phase) := by
  have hNe : stored.Status.Phase ≠ "" := by
    rcases hTerm with h | h | h <;> rw [h] <;> decide
  unfold DbtRunReconciler.Reconcile
  cases hG : env.getRun with
  | some err => cases hNF : IsNotFound err <;> simp [hNF]
  | none =>
    cases hP : env.getProject stored.Namespace stored.Spec.ProjectRef with
    | error err => simp [hP]
    | ok project =>
      simp only [hP, hNe, if_false, reconcileEnsureJob, hRef, reconcileJob]
      cases hJ : env.getJob ref.Namespace ref.Name with
      | error err =>
        cases hNF : IsNotFound err
        · simp [hNF]
        · have hE := hMissing err hJ hNF
          cases hU : env.updJobMissing <;> simp [hNF, persist, hU, hE]
      | ok job =>
        rcases hFound job hJ with ⟨hPh, hS⟩ | ⟨hPh, hS, hF⟩
        · cases hU : env.updFinal <;> simp [hS, hPh]
        · cases hU : env.updFinal <;> simp [hS, hF, hPh]

/-- C8 at a concrete input: a succeeded Run whose Job still reports its
succeeded pod stays `Succeeded`. -/
theorem Reconcile_terminal_phase_witness :
    (DbtRunReconciler.Reconcile (envWith { Succeeded := 1 }) runSucceeded).stored.Status.Phase
      = runSucceeded.Status.Phase :=
  (Reconcile_terminal_phase (envWith { Succeeded := 1 }) runSucceeded jobRefNightly rfl
    (Or.inl rfl)
    (fun job h => Or.inl ⟨rfl, by
      have h2 : (Except.ok (jobNightly { Succeeded := 1 }) : Except Err Job) = Except.ok job := h
      rw [← Except.ok.inj h2]; decide⟩)
    (fun err h _ => by
      have h2 : (Except.ok (jobNightly { Succeeded := 1 }) : Except Err Job)
        = Except.error err := h
      cases h2)).1

/-! ## Theorems: the scheduling table -/

/-- What `removeScheduledJob` leaves: the table without the key, the scheduler
without the entry the table pointed to, the identity counter untouched. -/
theorem removeScheduledJob_spec (st : SchedulerState) (key : NamespacedName) :
    (removeScheduledJob st key).scheduledJobs
      = (fun k => if k = jobID key.Namespace key.Name then none else st.scheduledJobs k) ∧
    (removeScheduledJob st key).Scheduler.nextID = st.Scheduler.nextID ∧
    (removeScheduledJob st key).Scheduler.entries
      = st.Scheduler.entries.filter
          (fun e => decide (st.scheduledJobs (jobID key.Namespace key.Name) ≠ some e.ID)) := by
  cases h : st.scheduledJobs (jobID key.Namespace key.Name) with
  | none =>
    simp only [removeScheduledJob, h]
    refine ⟨?_, trivial, ?_⟩
    · funext k
      by_cases hk : k = jobID key.Namespace key.Name
      · simp [hk, h]
      · simp [hk]
    · simp
  | some id =>
    simp only [removeScheduledJob, h]
    refine ⟨trivial, rfl, ?_⟩
    simp only [Cron.Remove, ne_eq, Option.some.injEq]
    apply List.filter_congr
    intro e _
    by_cases he : e.ID = id
    · simp [he]
    · have : ¬ id = e.ID := fun h => he h.symm
      simp [he, this]

/-- What a successful `scheduleProject` leaves: no error, the table pointing to
the new identity, the scheduler without the old entry and with the new one. -/
theorem scheduleProject_accepted (parse : String → Option Err) (st : SchedulerState)
    (project : DbtProject) (hParse : parse project.Spec.Schedule = none) :
    (scheduleProject parse st project).1 = none ∧
    (scheduleProject parse st project).2.scheduledJobs
      = (fun k => if k = jobID project.Namespace project.Name
          then some (st.Scheduler.nextID + 1) else st.scheduledJobs k) ∧
    (scheduleProject parse st project).2.Scheduler.nextID = st.Scheduler.nextID + 1 ∧
    (scheduleProject parse st project).2.Scheduler.entries
      = st.Scheduler.entries.filter (fun e =>
          decide (st.scheduledJobs (jobID project.Namespace project.Name) ≠ some e.ID))
        ++ [{ ID := st.Scheduler.nextID + 1, Schedule := project.Spec.Schedule,
              Owner := jobID project.Namespace project.Name }] := by
  obtain ⟨hT, hN, hE⟩ := removeScheduledJob_spec st
    { Namespace := project.Namespace, Name := project.Name }
  simp only [scheduleProject, Cron.AddFunc, hParse, hN, hE, hT]
  refine ⟨trivial, ?_, trivial, trivial⟩
  funext k
  by_cases hk : k = jobID project.Namespace project.Name <;> simp [hk]

/-- What a rejected `scheduleProject` leaves: the wrapped parser error, and the
state that `removeScheduledJob` produced. -/
theorem scheduleProject_rejected (parse : String → Option Err) (st : SchedulerState)
    (project : DbtProject) (err : Err) (hParse : parse project.Spec.Schedule = some err) :
    (scheduleProject parse st project).1 = some (.wrapped "failed to schedule job" err) ∧
    (scheduleProject parse st project).2.scheduledJobs
      = (removeScheduledJob st
          { Namespace := project.Namespace, Name := project.Name }).scheduledJobs ∧
    (scheduleProject parse st project).2.Scheduler
      = (removeScheduledJob st
          { Namespace := project.Namespace, Name := project.Name }).Scheduler := by
  simp [scheduleProject, Cron.AddFunc, hParse]

/-- The removal keeps the invariant of the scheduling state. -/
theorem removeScheduledJob_inv (st : SchedulerState) (key : NamespacedName)
    (h : TableInv st) : TableInv (removeScheduledJob st key) := by
  obtain ⟨hT, hN, hE⟩ := removeScheduledJob_spec st key
  constructor
  · intro e he
    rw [hE, List.mem_filter] at he
    rw [hT]
    have hOwn := h.owned e he.1
    by_cases hk : e.Owner = jobID key.Namespace key.Name
    · rw [hk] at hOwn
      simp [hOwn] at he
    · simp [hk, hOwn]
  · intro k id hk
    rw [hT] at hk
    rw [hN]
    by_cases hkk : k = jobID key.Namespace key.Name
    · simp [hkk] at hk
    · simp only [hkk, if_false] at hk
      exact h.bounded k id hk
  · intro k1 k2 id h1 h2
    rw [hT] at h1 h2
    by_cases hk1 : k1 = jobID key.Namespace key.Name
    · simp [hk1] at h1
    · by_cases hk2 : k2 = jobID key.Namespace key.Name
      · simp [hk2] at h2
      · simp only [hk1, hk2, if_false] at h1 h2
        exact h.injective k1 k2 id h1 h2

/-- An install, accepted or rejected, keeps the invariant of the scheduling state. -/
theorem scheduleProject_inv (parse : String → Option Err) (st : SchedulerState)
    (project : DbtProject) (h : TableInv st) :
    TableInv (scheduleProject parse st project).2 := by
  have hRem := removeScheduledJob_inv st
    { Namespace := project.Namespace, Name := project.Name } h
  cases hParse : parse project.Spec.Schedule with
  | some err =>
    obtain ⟨_, hT, hS⟩ := scheduleProject_rejected parse st project err hParse
    constructor
    · intro e he; rw [hS] at he; rw [hT]; exact hRem.owned e he
    · intro k id hk; rw [hT] at hk; rw [hS]; exact hRem.bounded k id hk
    · intro k1 k2 id h1 h2; rw [hT] at h1 h2; exact hRem.injective k1 k2 id h1 h2
  | none =>
    obtain ⟨_, hT, hN, hE⟩ := scheduleProject_accepted parse st project hParse
    constructor
    · intro e he
      rw [hE, List.mem_append, List.mem_filter, List.mem_singleton] at he
      rw [hT]
      rcases he with ⟨hMem, hKeep⟩ | hNew
      · have hOwn := h.owned e hMem
        by_cases hk : e.Owner = jobID project.Namespace project.Name
        · rw [hk] at hOwn
          simp [hOwn] at hKeep
        · simp [hk, hOwn]
      · simp [hNew]
    · intro k id hk
      rw [hT] at hk
      rw [hN]
      by_cases hkk : k = jobID project.Namespace project.Name
      · simp only [hkk, if_true, Option.some.injEq] at hk
        rw [← hk]
      · simp only [hkk, if_false] at hk
        exact Nat.le_succ_of_le (h.bounded k id hk)
    · intro k1 k2 id h1 h2
      rw [hT] at h1 h2
      by_cases hk1 : k1 = jobID project.Namespace project.Name <;>
        by_cases hk2 : k2 = jobID project.Namespace project.Name
      · rw [hk1, hk2]
      · simp only [hk1, hk2, if_true, if_false, Option.some.injEq] at h1 h2
        have hb := h.bounded k2 id h2
        rw [← h1] at hb
        exact absurd hb (Nat.not_succ_le_self _)
      · simp only [hk1, hk2, if_true, if_false, Option.some.injEq] at h1 h2
        have hb := h.bounded k1 id h1
        rw [← h2] at hb
        exact absurd hb (Nat.not_succ_le_self _)
      · simp only [hk1, hk2, if_false] at h1 h2
        exact h.injective k1 k2 id h1 h2

/-- Every state that installs and removals produce satisfies the invariant. -/
theorem Reachable.inv (parse : String → Option Err) (st : SchedulerState)
    (h : Reachable parse st) : TableInv st := by
  induction h with
  | init =>
    constructor
    · intro e he; simp at he
    · intro k id hk; simp at hk
    · intro k1 k2 id h1; simp at h1
  | install st project _ ih => exact scheduleProject_inv parse st project ih
  | remove st key _ ih => exact removeScheduledJob_inv st key ih

/-- The scheduler entries after two accepted installs in a row: the entries the
identity did not own before, followed by the second new entry. -/
theorem scheduleProject_twice_entries (parse : String → Option Err) (st : SchedulerState)
    (project : DbtProject) (hInv : TableInv st)
    (hParse : parse project.Spec.Schedule = none) :
    (scheduleProject parse (scheduleProject parse st project).2 project).2.Scheduler.entries
      = st.Scheduler.entries.filter (fun e =>
          decide (st.scheduledJobs (jobID project.Namespace project.Name) ≠ some e.ID))
        ++ [{ ID := st.Scheduler.nextID + 2, Schedule := project.Spec.Schedule,
              Owner := jobID project.Namespace project.Name }] := by
  obtain ⟨_, hT1, hN1, hE1⟩ := scheduleProject_accepted parse st project hParse
  obtain ⟨_, _, _, hE2⟩ :=
    scheduleProject_accepted parse (scheduleProject parse st project).2 project hParse
  rw [hE2, hN1, hE1, hT1]
  simp only [if_true, ne_eq, Option.some.injEq, List.filter_append, List.filter_filter,
    List.filter_cons, List.filter_nil, decide_not, decide_True, Bool.not_true,
    Bool.false_eq_true, if_false, List.append_nil]
  congr 1
  apply List.filter_congr
  intro e he
  have hOwn := hInv.owned e he
  have hB := hInv.bounded e.Owner e.ID hOwn
  have hNe : ¬ st.Scheduler.nextID + 1 = e.ID := by
    intro h
    rw [← h] at hB
    exact absurd hB (Nat.not_succ_le_self _)
  simp [hNe]

/-- C6: from any table state that installs and removals produce, installing an
accepted schedule expression for a project identity twice in a row succeeds both
times and leaves exactly one live scheduler entry for that identity, the one of
the second install: the entry of the first install is gone from the scheduler,
the table maps the identity to the second entry, and the table slots and the
scheduler entries of the other identities are as they were. -/
theorem scheduleProject_twice (parse : String → Option Err) (st : SchedulerState)
    (project : DbtProject) (hReach : Reachable parse st)
    (hParse : parse project.Spec.Schedule = none) :
    (scheduleProject parse st project).1 = none ∧
    (scheduleProject parse (scheduleProject parse st project).2 project).1 = none ∧
    (scheduleProject parse st project).2.scheduledJobs (jobID project.Namespace project.Name)
      = some (st.Scheduler.nextID + 1) ∧
    ({ ID := st.Scheduler.nextID + 1, Schedule := project.Spec.Schedule,
       Owner := jobID project.Namespace project.Name } : Entry)
      ∈ (scheduleProject parse st project).2.Scheduler.entries ∧
    (scheduleProject parse (scheduleProject parse st project).2 project).2.scheduledJobs
      (jobID project.Namespace project.Name) = some (st.Scheduler.nextID + 2) ∧
    (∀ e ∈ (scheduleProject parse
        (scheduleProject parse st project).2 project).2.Scheduler.entries,
      e.ID ≠ st.Scheduler.nextID + 1) ∧
    (scheduleProject parse (scheduleProject parse st project).2 project).2.Scheduler.entries.filter
        (fun e => decide (e.Owner = jobID project.Namespace project.Name))
      = [{ ID := st.Scheduler.nextID + 2, Schedule := project.Spec.Schedule,
           Owner := jobID project.Namespace project.Name }] ∧
    (∀ k, k ≠ jobID project.Namespace project.Name →
      (scheduleProject parse (scheduleProject parse st project).2 project).2.scheduledJobs k
        = st.scheduledJobs k) ∧
    (scheduleProject parse (scheduleProject parse st project).2 project).2.Scheduler.entries.filter
        (fun e => decide (e.Owner ≠ jobID project.Namespace project.Name))
      = st.Scheduler.entries.filter
        (fun e => decide (e.Owner ≠ jobID project.Namespace project.Name)) := by
  have hInv := Reachable.inv parse st hReach
  have hEntries := scheduleProject_twice_entries parse st project hInv hParse
  obtain ⟨hOk1, hT1, hN1, hE1⟩ := scheduleProject_accepted parse st project hParse
  obtain ⟨hOk2, hT2, _, _⟩ :=
    scheduleProject_accepted parse (scheduleProject parse st project).2 project hParse
  refine ⟨hOk1, hOk2, ?_, ?_, ?_, ?_, ?_, ?_, ?_⟩
  · rw [hT1]; simp
  · rw [hE1]; simp
  · rw [hT2, hN1]; simp
  · intro e he
    rw [hEntries, List.mem_append, List.mem_filter, List.mem_singleton] at he
    rcases he with ⟨hMem, _⟩ | hNew
    · have hB := hInv.bounded e.Owner e.ID (hInv.owned e hMem)
      intro h
      rw [h] at hB
      exact absurd hB (Nat.not_succ_le_self _)
    · rw [hNew]
      exact Nat.succ_ne_self _
  · rw [hEntries, List.filter_append, List.filter_filter]
    have hNone : st.Scheduler.entries.filter (fun e =>
        decide (e.Owner = jobID project.Namespace project.Name) &&
        decide (st.scheduledJobs (jobID project.Namespace project.Name) ≠ some e.ID)) = [] := by
      rw [List.filter_eq_nil_iff]
      intro e he
      have hOwn := hInv.owned e he
      by_cases hk : e.Owner = jobID project.Namespace project.Name
      · rw [hk] at hOwn
        simp [hOwn]
      · simp [hk]
    rw [hNone]
    simp
  · intro k hk
    rw [hT2, hT1]
    simp [hk]
  · rw [hEntries, List.filter_append, List.filter_filter]
    have hSame : st.Scheduler.entries.filter (fun e =>
        decide (e.Owner ≠ jobID project.Namespace project.Name) &&
        decide (st.scheduledJobs (jobID project.Namespace project.Name) ≠ some e.ID))
        = st.Scheduler.entries.filter
          (fun e => decide (e.Owner ≠ jobID project.Namespace project.Name)) := by
      apply List.filter_congr
      intro e he
      have hOwn := hInv.owned e he
      by_cases hk : e.Owner = jobID project.Namespace project.Name
      · simp [hk]
      · have hNe : ¬ st.scheduledJobs (jobID project.Namespace project.Name) = some e.ID := by
          intro h
          exact hk (hInv.injective _ _ _ hOwn h)
        simp [hk, hNe]
    rw [hSame]
    simp

/-- C6 at a concrete input: the table after another Project has been installed,
then `projectCron` installed twice. -/
theorem scheduleProject_twice_witness :
    parseSample projectCron.Spec.Schedule = none ∧
    (scheduleProject parseSample
      (scheduleProject parseSample (scheduleProject parseSample {} projectOther).2
        projectCron).2 projectCron).2.scheduledJobs "data/shop" = some 3 :=
  ⟨by decide, (scheduleProject_twice parseSample (scheduleProject parseSample {} projectOther).2
    projectCron (Reachable.install {} projectOther Reachable.init) (by decide)).2.2.2.2.1⟩

/-! ## Theorems: the Project reconciler -/

/-- C4 at its failing input: `projectCron` is reconciled from the empty table and
gets timer entry 1; its schedule is then cleared, and the reconcile of the
edited Project returns without error while the table still holds entry 1 for
`data/shop` and the scheduler still carries the old tick source. -/
theorem Reconcile_stale_entry :
    schedInstalled.scheduledJobs "data/shop" = some 1 ∧
    projectUnscheduled.Spec.Suspend = false ∧
    projectUnscheduled.Spec.Schedule = "" ∧
    (DbtProjectReconciler.Reconcile envProject schedInstalled projectUnscheduled).err = none ∧
    (DbtProjectReconciler.Reconcile envProject schedInstalled
      projectUnscheduled).sched.scheduledJobs "data/shop" = some 1 ∧
    (DbtProjectReconciler.Reconcile envProject schedInstalled
      projectUnscheduled).sched.Scheduler.entries
      = [{ ID := 1, Schedule := "0 */5 * * * *", Owner := "data/shop" }] := by
  refine ⟨?_, rfl, rfl, ?_, ?_, ?_⟩ <;> decide

/-- The facts about the state that `removeScheduledJob` leaves: no table entry
under the key, no scheduler entry with the identity the table pointed to, the
other table slots as they were. -/
theorem removeScheduledJob_facts (st : SchedulerState) (key : NamespacedName) :
    (removeScheduledJob st key).scheduledJobs (jobID key.Namespace key.Name) = none ∧
    (∀ id, st.scheduledJobs (jobID key.Namespace key.Name) = some id →
      ∀ e ∈ (removeScheduledJob st key).Scheduler.entries, e.ID ≠ id) ∧
    (∀ k, k ≠ jobID key.Namespace key.Name →
      (removeScheduledJob st key).scheduledJobs k = st.scheduledJobs k) := by
  obtain ⟨hT, _, hE⟩ := removeScheduledJob_spec st key
  refine ⟨?_, ?_, ?_⟩
  · rw [hT]; simp
  · intro id hId e he
    rw [hE, List.mem_filter, hId] at he
    intro h
    rw [h] at he
    simp at he
  · intro k hk
    rw [hT]; simp [hk]

/-- C5, as stated, fails: the suspended `projectSuspended` is reconciled while the
table holds entry 1 for it; the store answers the `Suspended` status write with
a conflict, the reconcile returns that error, and the timer entry is still in
the table and in the scheduler. -/
theorem Reconcile_suspended_counterexample :
    projectSuspended.Spec.Suspend = true ∧
    (DbtProjectReconciler.Reconcile envSuspendConflict schedInstalled projectSuspended).err
      = some .conflict ∧
    (DbtProjectReconciler.Reconcile envSuspendConflict schedInstalled
      projectSuspended).sched.scheduledJobs "data/shop" = some 1 ∧
    (DbtProjectReconciler.Reconcile envSuspendConflict schedInstalled
      projectSuspended).sched.Scheduler.entries
      = [{ ID := 1, Schedule := "0 */5 * * * *", Owner := "data/shop" }] := by
  refine ⟨rfl, ?_, ?_, ?_⟩ <;> decide

/-- C5, as amended: for a fetched Project with `suspend = true`, whatever its
schedule expression, its prior phase and the prior scheduling state, a Project
reconcile that returns without error leaves no table entry for its identity,
has removed from the scheduler the entry the table pointed to, and leaves the
table slots of the other identities as they were. -/
theorem Reconcile_suspended (env : ProjectEnv) (st : SchedulerState) (stored : DbtProject)
    (hGet : env.getProject = none) (hSuspend : stored.Spec.Suspend = true)
    (hOk : (DbtProjectReconciler.Reconcile env st stored).err = none) :
    (DbtProjectReconciler.Reconcile env st stored).sched.scheduledJobs
      (jobID stored.Namespace stored.Name) = none ∧
    (∀ id, st.scheduledJobs (jobID stored.Namespace stored.Name) = some id →
      ∀ e ∈ (DbtProjectReconciler.Reconcile env st stored).sched.Scheduler.entries,
        e.ID ≠ id) ∧
    (∀ k, k ≠ jobID stored.Namespace stored.Name →
      (DbtProjectReconciler.Reconcile env st stored).sched.scheduledJobs k
        = st.scheduledJobs k) := by
  have hState : (DbtProjectReconciler.Reconcile env st stored).sched
      = removeScheduledJob st { Namespace := stored.Namespace, Name := stored.Name } := by
    unfold DbtProjectReconciler.Reconcile at hOk ⊢
    simp only [hGet] at hOk ⊢
    by_cases hPh : stored.Status.Phase = ""
    · cases hU : env.updInit with
      | some err => simp [hPh, hU] at hOk
      | none =>
        simp only [hPh, hU, if_true, reconcileSchedule, hSuspend] at hOk ⊢
        cases hU2 : env.updSuspended with
        | some err => simp [hU2, DbtProjectPhaseReady, DbtProjectPhaseSuspended] at hOk
        | none => simp [hU2, DbtProjectPhaseReady, DbtProjectPhaseSuspended]
    · simp only [hPh, if_false, reconcileSchedule, hSuspend, if_true] at hOk ⊢
      by_cases hPh2 : stored.Status.Phase = DbtProjectPhaseSuspended
      · simp [hPh2]
      · cases hU2 : env.updSuspended with
        | some err => simp [hU2, hPh2] at hOk
        | none => simp [hU2, hPh2]
  rw [hState]
  exact removeScheduledJob_facts st { Namespace := stored.Namespace, Name := stored.Name }

/-- C5 at a concrete input: the suspended Project reconciled against a store that
accepts every write, the table holding entry 1 for it. -/
theorem Reconcile_suspended_witness :
    projectSuspended.Spec.Suspend = true ∧
    (DbtProjectReconciler.Reconcile envProject schedInstalled projectSuspended).err = none ∧
    (DbtProjectReconciler.Reconcile envProject schedInstalled
      projectSuspended).sched.scheduledJobs (jobID "data" "shop") = none :=
  ⟨rfl, by decide,
    (Reconcile_suspended envProject schedInstalled projectSuspended rfl rfl (by decide)).1⟩

/-- C10, as stated, fails: the new, not suspended `projectBadSchedule` declares a
schedule that the parser rejects; the store answers the initialising status
write with a conflict, and the reconcile returns that error with no retry
delay, the phase `Ready` in its local Project and no `Error` written. -/
theorem Reconcile_rejected_counterexample :
    projectBadSchedule.Spec.Suspend = false ∧
    projectBadSchedule.Spec.Schedule ≠ "" ∧
    parseSample projectBadSchedule.Spec.Schedule ≠ none ∧
    (DbtProjectReconciler.Reconcile envInitConflict {} projectBadSchedule).err
      = some .conflict ∧
    (DbtProjectReconciler.Reconcile envInitConflict {} projectBadSchedule).result.RequeueAfter
      = 0 ∧
    (DbtProjectReconciler.Reconcile envInitConflict {} projectBadSchedule).result.RequeueAfter
      ≠ 1 * Minute ∧
    (DbtProjectReconciler.Reconcile envInitConflict {}
      projectBadSchedule).dbtProject.Status.Phase = "Ready" ∧
    (DbtProjectReconciler.Reconcile envInitConflict {}
      projectBadSchedule).stored.Status.Phase = "" := by
  refine ⟨rfl, ?_, ?_, ?_, ?_, ?_, ?_, ?_⟩ <;> decide

/-- C10, as amended: for a fetched, not suspended Project with a non-empty
schedule expression that the scheduler rejects, whose phase is already set or
whose initialising status write the store accepts, the Project reconcile
returns the wrapped scheduling error with a retry delay of exactly one minute,
leaves the phase `Error` in its Project and issues the status write of it
(stored once accepted), and leaves the table with no entry for the identity,
the other slots unchanged, and the scheduler without the old entry and with no
new one. -/
theorem Reconcile_rejected (env : ProjectEnv) (st : SchedulerState) (stored : DbtProject)
    (err : Err) (hGet : env.getProject = none) (hSuspend : stored.Spec.Suspend = false)
    (hSchedule : stored.Spec.Schedule ≠ "")
    (hParse : env.parse stored.Spec.Schedule = some err)
    (hInit : stored.Status.Phase = "" → env.updInit = none) :
    (DbtProjectReconciler.Reconcile env st stored).err
      = some (.wrapped "failed to schedule job" err) ∧
    (DbtProjectReconciler.Reconcile env st stored).result
      = { Requeue := false, RequeueAfter := 60000000000 } ∧
    (DbtProjectReconciler.Reconcile env st stored).dbtProject.Status.Phase
      = DbtProjectPhaseError ∧
    Event.updateProjectStatus (DbtProjectReconciler.Reconcile env st stored).dbtProject
      env.updError.isNone ∈ (DbtProjectReconciler.Reconcile env st stored).trace ∧
    (env.updError = none →
      (DbtProjectReconciler.Reconcile env st stored).stored.Status.Phase
        = DbtProjectPhaseError) ∧
    (DbtProjectReconciler.Reconcile env st stored).sched.scheduledJobs
      (jobID stored.Namespace stored.Name) = none ∧
    (∀ k, k ≠ jobID stored.Namespace stored.Name →
      (DbtProjectReconciler.Reconcile env st stored).sched.scheduledJobs k
        = st.scheduledJobs k) ∧
    (DbtProjectReconciler.Reconcile env st stored).sched.Scheduler.nextID
      = st.Scheduler.nextID ∧
    (DbtProjectReconciler.Reconcile env st stored).sched.Scheduler.entries
      = st.Scheduler.entries.filter (fun e =>
          decide (st.scheduledJobs (jobID stored.Namespace stored.Name) ≠ some e.ID)) := by
  obtain ⟨hT, hN, hE⟩ := removeScheduledJob_spec st
    { Namespace := stored.Namespace, Name := stored.Name }
  have tail : ∀ (dbtProject stored0 : DbtProject) (trace : List Event),
      dbtProject.Spec = stored.Spec → dbtProject.Namespace = stored.Namespace →
      dbtProject.Name = stored.Name →
      reconcileSchedule env { Namespace := stored.Namespace, Name := stored.Name } st
          dbtProject stored0 trace
        = { result := { RequeueAfter := 1 * Minute }
            err := some (.wrapped "failed to schedule job" err)
            dbtProject := { dbtProject with Status.Phase := DbtProjectPhaseError }
            stored := match env.updError with
              | none => { dbtProject with Status.Phase := DbtProjectPhaseError }
              | some _ => stored0
            sched := (scheduleProject env.parse st dbtProject).2
            trace := trace ++ [.updateProjectStatus
              { dbtProject with Status.Phase := DbtProjectPhaseError } env.updError.isNone] } ∧
      (scheduleProject env.parse st dbtProject).2.scheduledJobs
        = (removeScheduledJob st
            { Namespace := stored.Namespace, Name := stored.Name }).scheduledJobs ∧
      (scheduleProject env.parse st dbtProject).2.Scheduler
        = (removeScheduledJob st
            { Namespace := stored.Namespace, Name := stored.Name }).Scheduler := by
    intro dbtProject stored0 trace hSpec hNs hName
    have hParse2 : env.parse dbtProject.Spec.Schedule = some err := by rw [hSpec]; exact hParse
    obtain ⟨hErr, hT2, hS2⟩ := scheduleProject_rejected env.parse st dbtProject err hParse2
    refine ⟨?_, ?_, ?_⟩
    · simp only [reconcileSchedule, hSpec, hSuspend, hSchedule, ne_eq, not_false_eq_true,
        if_true, if_false, Bool.false_eq_true]
      rw [show stored.Spec = dbtProject.Spec from hSpec.symm, hErr]
    · rw [hT2, hNs, hName]
    · rw [hS2, hNs, hName]
  have reach : ∃ (dbtProject stored0 : DbtProject) (trace : List Event),
      dbtProject.Spec = stored.Spec ∧ dbtProject.Namespace = stored.Namespace ∧
      dbtProject.Name = stored.Name ∧
      DbtProjectReconciler.Reconcile env st stored
        = reconcileSchedule env { Namespace := stored.Namespace, Name := stored.Name } st
            dbtProject stored0 trace := by
    by_cases hPh : stored.Status.Phase = ""
    · unfold DbtProjectReconciler.Reconcile
      simp only [hGet, hPh, hInit hPh, if_true]
      refine ⟨_, _, _, ?_, ?_, ?_, rfl⟩ <;> rfl
    · unfold DbtProjectReconciler.Reconcile
      simp only [hGet, hPh, if_false]
      refine ⟨_, _, _, ?_, ?_, ?_, rfl⟩ <;> rfl
  obtain ⟨dbtProject, stored0, trace, hSpec, hNs, hName, hEq⟩ := reach
  obtain ⟨hOut, hT2, hS2⟩ := tail dbtProject stored0 trace hSpec hNs hName
  rw [hEq, hOut]
  refine ⟨rfl, ?_, rfl, ?_, ?_, ?_, ?_, ?_, ?_⟩
  · simp [Minute]
  · simp
  · intro hU; simp [hU]
  · simp only [hT2, hT]; simp
  · intro k hk; simp only [hT2, hT]; simp [hk]
  · simp only [hS2, hN]
  · simp only [hS2, hE]

/-- C10 at a concrete input: the Project whose schedule was edited into a
rejected expression, reconciled while the table holds entry 1 for it. -/
theorem Reconcile_rejected_witness :
    projectBadEdit.Spec.Suspend = false ∧
    projectBadEdit.Spec.Schedule ≠ "" ∧
    envProject.parse projectBadEdit.Spec.Schedule
      = some (.other "expected exactly 6 fields") ∧
    (DbtProjectReconciler.Reconcile envProject schedInstalled
      projectBadEdit).sched.scheduledJobs (jobID "data" "shop") = none :=
  ⟨rfl, by decide, by decide,
    (Reconcile_rejected envProject schedInstalled projectBadEdit
      (.other "expected exactly 6 fields") rfl rfl (by decide) (by decide)
      (fun h => absurd h (by decide))).2.2.2.2.2.1⟩

/-! ## Theorems: a disappeared Job -/

/-- C11, as stated, fails: the started Run records a job reference and its Job is
absent from the store, but the owning Project cannot be fetched either; the
reconcile returns that fetch error, issues no status write, and the Run's phase
stays `Running`. -/
theorem Reconcile_jobMissing_counterexample :
    runStarted.Status.JobRef = some jobRefNightly ∧
    envProjectGone.getJob jobRefNightly.Namespace jobRefNightly.Name = .error .notFound ∧
    (DbtRunReconciler.Reconcile envProjectGone runStarted).err = some .notFound ∧
    (DbtRunReconciler.Reconcile envProjectGone runStarted).dbtRun.Status.Phase = "Running" ∧
    (DbtRunReconciler.Reconcile envProjectGone runStarted).stored.Status.Phase = "Running" ∧
    (DbtRunReconciler.Reconcile envProjectGone runStarted).trace = [] := by
  refine ⟨rfl, rfl, rfl, rfl, rfl, rfl⟩

/-- C11, as amended: for a fetched Run with a recorded job reference whose
owning Project is fetched, whose phase is set or whose `Pending` write the store
accepts, and whose Job the store answers as not-found, the Run reconcile sets
the phase to `Error`, issues the status write of it as its last call, and stops:
it returns no error and no requeue, never enters `createJob` nor issues a Job
create, mirrors no Job status, and leaves the recorded reference, the mirrored
Job status, the start time and the completion time as they were, in its local
Run and in the Run the store holds. -/
theorem Reconcile_jobMissing (env : RunEnv) (stored : DbtRun) (ref : ObjectReference)
    (project : DbtProject) (err : Err)
    (hRun : env.getRun = none)
    (hProject : env.getProject stored.Namespace stored.Spec.ProjectRef = .ok project)
    (hPending : stored.Status.Phase = "" → env.updPending = none)
    (hRef : stored.Status.JobRef = some ref)
    (hJob : env.getJob ref.Namespace ref.Name = .error err)
    (hNotFound : IsNotFound err = true) :
    (DbtRunReconciler.Reconcile env stored).dbtRun.Status.Phase = RunPhaseError ∧
    (DbtRunReconciler.Reconcile env stored).err = none ∧
    (DbtRunReconciler.Reconcile env stored).result = { Requeue := false, RequeueAfter := 0 } ∧
    (∀ e ∈ (DbtRunReconciler.Reconcile env stored).trace, e.isCreation = false) ∧
    (DbtRunReconciler.Reconcile env stored).trace.getLast?
      = some (.updateRunStatus (DbtRunReconciler.Reconcile env stored).dbtRun
          env.updJobMissing.isNone) ∧
    (DbtRunReconciler.Reconcile env stored).job = none ∧
    ((DbtRunReconciler.Reconcile env stored).dbtRun.Status.JobRef = some ref ∧
      (DbtRunReconciler.Reconcile env stored).dbtRun.Status.JobStatus
        = stored.Status.JobStatus ∧
      (DbtRunReconciler.Reconcile env stored).dbtRun.Status.StartTime
        = stored.Status.StartTime ∧
      (DbtRunReconciler.Reconcile env stored).dbtRun.Status.CompletionTime
        = stored.Status.CompletionTime) ∧
    ((DbtRunReconciler.Reconcile env stored).stored.Status.JobRef = some ref ∧
      (DbtRunReconciler.Reconcile env stored).stored.Status.JobStatus
        = stored.Status.JobStatus ∧
      (DbtRunReconciler.Reconcile env stored).stored.Status.StartTime
        = stored.Status.StartTime ∧
      (DbtRunReconciler.Reconcile env stored).stored.Status.CompletionTime
        = stored.Status.CompletionTime) ∧
    (env.updJobMissing = none →
      (DbtRunReconciler.Reconcile env stored).stored.Status.Phase = RunPhaseError) := by
  unfold DbtRunReconciler.Reconcile
  simp only [hRun, hProject]
  by_cases hPh : stored.Status.Phase = ""
  · simp only [hPh, hPending hPh, if_true, reconcileEnsureJob, hRef, reconcileJob, hJob,
      hNotFound]
    cases hU : env.updJobMissing <;>
      simp [persist, hRef, Event.isCreation]
  · simp only [hPh, if_false, reconcileEnsureJob, hRef, reconcileJob, hJob, hNotFound, if_true]
    cases hU : env.updJobMissing <;>
      simp [persist, hRef, Event.isCreation]

/-- C11 at a concrete input: the started Run reconciled after its Job has been
deleted, the Project still present. -/
theorem Reconcile_jobMissing_witness :
    runStarted.Status.JobRef = some jobRefNightly ∧
    envJobGone.getJob jobRefNightly.Namespace jobRefNightly.Name = .error .notFound ∧
    (DbtRunReconciler.Reconcile envJobGone runStarted).dbtRun.Status.Phase = RunPhaseError :=
  ⟨rfl, rfl,
    (Reconcile_jobMissing envJobGone runStarted jobRefNightly projectShop .notFound
      rfl rfl (fun h => absurd h (by decide)) rfl rfl rfl).1⟩

end DagctlDbt
